import Mathlib

/-!
Verification of the remote bytecode builder in
source/UIAHandler/_remoteOps/midLevel.py.

The builder records operations on typed operand proxies as instructions in an
instruction stream, backpatches relative jump offsets for structured control
flow (if / else / while / try / catch), serializes the stream to bytecode and
makes a single call into an external execution engine.

This file gives a shallow embedding of that code: the builder state is a
structure, every operation of the Python code becomes a pure function on the
state, and the claims about the code are proved as theorems over those
functions.  Machine integers are modelled as Int with explicit reduction
modulo 2^32 where serialization truncates; the mutable RelativeOffset cell of
an instruction record is modelled as an offset parameter carrying its current
value together with the number of times it has been patched.
-/

namespace MidLevel

/-- Enumeration mirroring lowLevel.InstructionType as used by midLevel.py.
Modelled from the spec: the file lowLevel.py is not under src; the spec only
fixes that opcodes come from a fixed enumeration and occupy 4 bytes, so the
constructors are those referenced by midLevel.py and the numeric codes are the
enumeration indices (no claim depends on the concrete numeric values). -/
inductive InstructionType where
  | Set
  | Stringify
  | Compare
  | BinaryAdd
  | Add
  | BinarySubtract
  | Subtract
  | BinaryMultiply
  | Multiply
  | BinaryDivide
  | Divide
  | NewInt
  | NewBool
  | NewString
  | NewGuid
  | NewNull
  | IsNull
  | IsInt
  | IsBool
  | IsString
  | IsGuid
  | IsElement
  | IsExtensionSupported
  | CallExtension
  | GetPropertyValue
  | RemoteStringConcat
  | ForkIfFalse
  | Fork
  | NewLoopBlock
  | EndLoopBlock
  | BreakLoop
  | ContinueLoop
  | NewTryBlock
  | EndTryBlock
  | SetOperationStatus
  | GetOperationStatus
  | Halt
  deriving DecidableEq, Repr

/-- Numeric opcode of an instruction type (its enumeration index).
Modelled from the spec: lowLevel.py is not under src, so the concrete values
are opaque; only the 4-byte width matters to any claim. -/
def opcodeOf : InstructionType → Nat
  | .Set => 0
  | .Stringify => 1
  | .Compare => 2
  | .BinaryAdd => 3
  | .Add => 4
  | .BinarySubtract => 5
  | .Subtract => 6
  | .BinaryMultiply => 7
  | .Multiply => 8
  | .BinaryDivide => 9
  | .Divide => 10
  | .NewInt => 11
  | .NewBool => 12
  | .NewString => 13
  | .NewGuid => 14
  | .NewNull => 15
  | .IsNull => 16
  | .IsInt => 17
  | .IsBool => 18
  | .IsString => 19
  | .IsGuid => 20
  | .IsElement => 21
  | .IsExtensionSupported => 22
  | .CallExtension => 23
  | .GetPropertyValue => 24
  | .RemoteStringConcat => 25
  | .ForkIfFalse => 26
  | .Fork => 27
  | .NewLoopBlock => 28
  | .EndLoopBlock => 29
  | .BreakLoop => 30
  | .ContinueLoop => 31
  | .NewTryBlock => 32
  | .EndTryBlock => 33
  | .SetOperationStatus => 34
  | .GetOperationStatus => 35
  | .Halt => 36

/-- An instruction parameter.  OperandId and RelativeOffset are c_long (4
bytes); comparison types and lengths are c_long immediates; c_bool is one
byte; a text parameter is the c_wchar array produced by
ctypes.create_unicode_buffer, i.e. the UTF-16 code units of the string
followed by the NUL terminator, two bytes per unit; a GUID is 16 raw bytes.
A RelativeOffset is the one mutable cell of an otherwise immutable record: it
carries its current value and the number of times it has been patched. -/
inductive Param where
  | operand (id : Nat)
  | intVal (v : Int)
  | boolVal (b : Bool)
  | offset (v : Int) (patches : Nat)
  | text (buf : List Nat)
  | guid (bytes16 : List Nat)
  deriving DecidableEq, Repr

/-- Mirror of the _InstructionRecord dataclass: instruction type, ordered
parameter list, and a call-site string kept for diagnostics. -/
structure InstructionRecord where
  instructionType : InstructionType
  params : List Param
  locationString : String
  deriving DecidableEq, Repr

/-- Python literal values of the types in RemoteOperationBuilder._pyClassToRemoteClass
(int, bool, str, GUID).  Strings are lists of UTF-16 code units; GUIDs are
their 16 raw bytes. -/
inductive PyValue where
  | pyInt (n : Int)
  | pyBool (b : Bool)
  | pyStr (s : List Nat)
  | pyGuid (g : List Nat)
  deriving DecidableEq, Repr

/-- Python-level type tags of the supported literal values. -/
inductive PyType where
  | tInt
  | tBool
  | tStr
  | tGuid
  deriving DecidableEq, Repr

/-- Runtime type of a literal value (Python type(obj)). -/
def typeOf : PyValue → PyType
  | .pyInt _ => .tInt
  | .pyBool _ => .tBool
  | .pyStr _ => .tStr
  | .pyGuid _ => .tGuid

/-- Keys of the _remotedObjectCache dict.  The code stores under the tuple
(type(obj), obj) but looks up under the bare value obj; a Python tuple never
compares equal to an int, bool, str or GUID, which the two distinct
constructors capture. -/
inductive DictKey where
  | tuple (ty : PyType) (v : PyValue)
  | plain (v : PyValue)
  deriving DecidableEq, Repr

/-- Dict lookup: first binding wins (a fresh store shadows older ones, matching
dict overwrite semantics). -/
def lookupDict (cache : List (DictKey × Nat)) (k : DictKey) : Option Nat :=
  (cache.find? (fun e => e.1 = k)).map (fun e => e.2)

/-- Identity of a scope builder object, as stored in _scopeJustExited.  The
isinstance checks of elseBlock and catchBlock become constructor tests; each
constructor carries the instruction index the corresponding Python builder
object records. -/
inductive Scope where
  | ifScope (conditionInstructionIndex : Nat)
  | elseScope (jumpInstructionIndex : Nat)
  | whileScope (newLoopBlockInstructionIndex : Nat)
  | tryScope (newTryBlockInstructionIndex : Nat)
  | catchScope (jumpInstructionIndex : Nat)
  deriving DecidableEq, Repr

/-- Builder state: the fields of RemoteOperationBuilder that the claims
concern (instruction list, operand-id counter, last-exited-scope marker and
the constant cache).  The operand counter holds the next id to be issued;
itertools.count(start=1) makes it start at 1. -/
structure Builder where
  instructions : List InstructionRecord
  nextOperandId : Nat
  scopeJustExited : Option Scope
  remotedObjectCache : List (DictKey × Nat)
  deriving DecidableEq, Repr

/-- Fresh builder (RemoteOperationBuilder.__init__ with logging disabled). -/
def initialBuilder : Builder :=
  { instructions := []
    nextOperandId := 1
    scopeJustExited := none
    remotedObjectCache := [] }

/-- Mirror of _getNewOperandId: issue the next operand id and advance the
counter. -/
def _getNewOperandId (s : Builder) : Nat × Builder :=
  (s.nextOperandId, { s with nextOperandId := s.nextOperandId + 1 })

/-- Mirror of _addInstruction: clear the last-exited-scope marker, append the
record, and return the new state with the index of the appended instruction.
The captured location string is diagnostics only and is modelled as empty. -/
def _addInstruction (s : Builder) (instruction : InstructionType)
    (params : List Param) : Builder × Nat :=
  ({ s with
      scopeJustExited := none
      instructions := s.instructions ++ [⟨instruction, params, ""⟩] },
    s.instructions.length)

/-- Instruction lookup (mirror of _getInstructionRecord, total via Option). -/
def getInstr (s : Builder) (i : Nat) : Option InstructionRecord :=
  s.instructions[i]?

/-- Parameter lookup inside an instruction. -/
def getParam (s : Builder) (i p : Nat) : Option Param :=
  (getInstr s i).bind (fun r => r.params[p]?)

/-- In-place mutation of a RelativeOffset parameter
(instruction.params[p].value = f value); the patch counter of the cell is
incremented.  Out-of-range indices leave the state unchanged (the Python code
never patches an invalid index). -/
def patchOffset (s : Builder) (i p : Nat) (f : Int → Int) : Builder :=
  match s.instructions[i]? with
  | none => s
  | some r =>
    match r.params[p]? with
    | some (.offset v c) =>
      { s with instructions :=
          s.instructions.set i { r with params := r.params.set p (.offset (f v) (c + 1)) } }
    | _ => s

/-- Instruction emitted by <RemoteClass>._initOperand for each supported
literal type: NewInt / NewBool / NewString / NewGuid with the operand id and
the encoded initial value.  create_unicode_buffer appends the NUL
terminator. -/
def _initOperandInstr (operandId : Nat) : PyValue → InstructionType × List Param
  | .pyInt n => (.NewInt, [.operand operandId, .intVal n])
  | .pyBool b => (.NewBool, [.operand operandId, .boolVal b])
  | .pyStr str => (.NewString, [.operand operandId, .text (str ++ [0])])
  | .pyGuid g => (.NewGuid, [.operand operandId, .guid g])

/-- Mirror of _RemoteBaseObject._new for literal types: allocate an operand
id, emit the construction instruction, return the new state and the id. -/
def _newRemote (s : Builder) (v : PyValue) : Builder × Nat :=
  let p := _getNewOperandId s
  let s1 := (_addInstruction p.2 (_initOperandInstr p.1 v).1 (_initOperandInstr p.1 v).2).1
  (s1, p.1)

/-- Objects passed where the code accepts Self | literal: either an existing
remote proxy (carrying its operand id) or a raw literal to materialize. -/
inductive PyObj where
  | remote (operandId : Nat)
  | lit (v : PyValue)
  deriving DecidableEq, Repr

/-- Mirror of RemoteOperationBuilder._ensureRemoteObject for the supported
literal types.  A remote object is returned as is.  Otherwise, when useCache
is set, the cache is consulted with the bare value as key
(_remotedObjectCache.get(obj)) even though the computed cacheKey is the tuple
(type(obj), obj); on a miss a fresh remote object is constructed and, when
useCache is set, stored under the tuple key. -/
def _ensureRemoteObject (s : Builder) (obj : PyObj) (useCache : Bool) :
    Builder × Nat :=
  match obj with
  | .remote id => (s, id)
  | .lit v =>
    match (if useCache then lookupDict s.remotedObjectCache (.plain v) else none) with
    | some id => (s, id)
    | none =>
      let p := _newRemote s v
      (if useCache then
          { p.1 with remotedObjectCache :=
              (DictKey.tuple (typeOf v) v, p.2) :: p.1.remotedObjectCache }
        else p.1, p.2)

/-- Mirror of _RemoteBaseObject.set: materialize the value (cached), then emit
one Set instruction. -/
def proxySet (s : Builder) (selfId : Nat) (value : PyObj) : Builder :=
  let p := _ensureRemoteObject s value true
  (_addInstruction p.1 .Set [.operand selfId, .operand p.2]).1

/-- Mirror of _RemoteBaseObject.stringify: allocate a result operand and emit
one Stringify instruction; returns the result operand id. -/
def stringify (s : Builder) (selfId : Nat) : Builder × Nat :=
  let p := _getNewOperandId s
  ((_addInstruction p.2 .Stringify [.operand p.1, .operand selfId]).1, p.1)

/-- Mirror of _RemoteBaseObject._doCompare: materialize the other operand
(cached), allocate a result operand, emit one Compare instruction carrying the
comparison type as a c_long immediate. -/
def _doCompare (s : Builder) (comparisonType : Int) (selfId : Nat)
    (other : PyObj) : Builder × Nat :=
  let p := _ensureRemoteObject s other true
  let q := _getNewOperandId p.1
  ((_addInstruction q.2 .Compare
      [.operand q.1, .operand selfId, .operand p.2, .intVal comparisonType]).1,
    q.1)

/-- Mirror of _RemoteNumber._doBinaryOp: materialize the other operand
(cached), allocate a result operand, emit one instruction. -/
def _doBinaryOp (s : Builder) (instructionType : InstructionType) (selfId : Nat)
    (other : PyObj) : Builder × Nat :=
  let p := _ensureRemoteObject s other true
  let q := _getNewOperandId p.1
  ((_addInstruction q.2 instructionType
      [.operand q.1, .operand selfId, .operand p.2]).1,
    q.1)

/-- Mirror of _RemoteNumber._doInplaceOp: materialize the other operand
(cached) and emit one instruction targeting self. -/
def _doInplaceOp (s : Builder) (instructionType : InstructionType) (selfId : Nat)
    (other : PyObj) : Builder :=
  let p := _ensureRemoteObject s other true
  (_addInstruction p.1 instructionType [.operand selfId, .operand p.2]).1

/-- The other argument of RemoteString._concat: another RemoteString proxy, a
raw string literal, or any other remote object (converted via stringify). -/
inductive StrOperand where
  | remoteStr (operandId : Nat)
  | litStr (units : List Nat)
  | remoteObj (operandId : Nat)
  deriving DecidableEq, Repr

/-- Mirror of RemoteString._concat: coerce the other operand (literal strings
through the cache, other remote objects through stringify), then emit one
RemoteStringConcat instruction into toResult. -/
def _concat (s : Builder) (selfId : Nat) (other : StrOperand)
    (toResultId : Nat) : Builder :=
  match other with
  | .remoteStr oid =>
    (_addInstruction s .RemoteStringConcat
      [.operand toResultId, .operand selfId, .operand oid]).1
  | .litStr u =>
    let p := _ensureRemoteObject s (.lit (.pyStr u)) true
    (_addInstruction p.1 .RemoteStringConcat
      [.operand toResultId, .operand selfId, .operand p.2]).1
  | .remoteObj oid =>
    let p := stringify s oid
    (_addInstruction p.1 .RemoteStringConcat
      [.operand toResultId, .operand selfId, .operand p.2]).1

/-- Mirror of RemoteString.__add__: allocate a fresh result string operand and
concatenate into it. -/
def strAdd (s : Builder) (selfId : Nat) (other : StrOperand) : Builder × Nat :=
  let p := _getNewOperandId s
  (_concat p.2 selfId other p.1, p.1)

/-- Mirror of RemoteString.__iadd__: concatenate into self. -/
def strIAdd (s : Builder) (selfId : Nat) (other : StrOperand) : Builder :=
  _concat s selfId other selfId

/-- Mirror of _RemoteNullable.isNull: construct a fresh RemoteBool via _new
(which emits a NewBool instruction), then emit the IsNull instruction. -/
def isNull (s : Builder) (selfId : Nat) : Builder × Nat :=
  let p := _newRemote s (.pyBool false)
  ((_addInstruction p.1 .IsNull [.operand p.2, .operand selfId]).1, p.2)

/-- Proxy classes of the remote object hierarchy. -/
inductive ProxyClass where
  | remoteInt
  | remoteBool
  | remoteString
  | remoteGuid
  | remoteVariant
  | remoteExtensionTarget
  | remoteElement
  | remoteTextRange
  deriving DecidableEq, Repr

/-- Class attribute _isTypeInstruction where defined. -/
def _isTypeInstruction : ProxyClass → Option InstructionType
  | .remoteInt => some .IsInt
  | .remoteBool => some .IsBool
  | .remoteString => some .IsString
  | .remoteGuid => some .IsGuid
  | .remoteElement => some .IsElement
  | _ => none

/-- Mirror of RemoteVariant.isType: build a fresh RemoteBool via newBool
(which emits a NewBool instruction), then emit the class's is-type
instruction; none when the class defines no _isTypeInstruction. -/
def isType (s : Builder) (selfId : Nat) (remoteClass : ProxyClass) :
    Option (Builder × Nat) :=
  match _isTypeInstruction remoteClass with
  | none => none
  | some t =>
    let p := _newRemote s (.pyBool false)
    some ((_addInstruction p.1 t [.operand p.2, .operand selfId]).1, p.2)

/-- A typed operand proxy: a class tag and the operand id it wraps (the
builder reference is threaded explicitly). -/
structure RemoteProxy where
  cls : ProxyClass
  operandId : Nat
  deriving DecidableEq, Repr

/-- Mirror of RemoteVariant.asType: construct a proxy of the requested class
over the same operand id; the builder is read but not modified. -/
def asType (rob : Builder) (selfOperandId : Nat) (remoteClass : ProxyClass) :
    Builder × RemoteProxy :=
  (rob, ⟨remoteClass, selfOperandId⟩)

/-- Mirror of RemoteExtensionTarget.isExtensionSupported: materialize the
extension GUID (cached), allocate a result operand, emit one instruction. -/
def isExtensionSupported (s : Builder) (selfId : Nat) (extensionGuid : PyObj) :
    Builder × Nat :=
  let p := _ensureRemoteObject s extensionGuid true
  let q := _getNewOperandId p.1
  ((_addInstruction q.2 .IsExtensionSupported
      [.operand q.1, .operand selfId, .operand p.2]).1,
    q.1)

/-- Mirror of RemoteExtensionTarget.callExtension: materialize the extension
GUID (cached), emit one CallExtension instruction carrying the argument count
and the argument operand ids. -/
def callExtension (s : Builder) (selfId : Nat) (extensionGuid : PyObj)
    (params : List Nat) : Builder :=
  let p := _ensureRemoteObject s extensionGuid true
  (_addInstruction p.1 .CallExtension
    ([.operand selfId, .operand p.2, .intVal (params.length : Int)] ++
      params.map Param.operand)).1

/-- Mirror of RemoteElement.getPropertyValue: materialize the property id and
the ignoreDefault flag (cached, the latter skipped when already a RemoteBool),
allocate a result variant operand, emit one instruction. -/
def getPropertyValue (s : Builder) (selfId : Nat) (propertyId : PyObj)
    (ignoreDefault : PyObj) : Builder × Nat :=
  let p := _ensureRemoteObject s propertyId true
  let q := _ensureRemoteObject p.1 ignoreDefault true
  let r := _getNewOperandId q.1
  ((_addInstruction r.2 .GetPropertyValue
      [.operand r.1, .operand selfId, .operand p.2, .operand q.2]).1,
    r.1)

/-- Mirror of RemoteOperationBuilder.halt: emit one Halt instruction. -/
def halt (s : Builder) : Builder :=
  (_addInstruction s .Halt []).1

/-- Mirror of _RemoteScope.__enter__: clear the last-exited-scope marker. -/
def scopeEnter (s : Builder) : Builder :=
  { s with scopeJustExited := none }

/-- Mirror of _RemoteScope.__exit__: record this scope as the one just
exited. -/
def scopeExit (s : Builder) (self : Scope) : Builder :=
  { s with scopeJustExited := some self }

/-- Mirror of _RemoteIfBlockBuilder.__enter__: clear the marker, then emit
ForkIfFalse with the condition operand and a sentinel offset of 1; returns the
recorded condition-instruction index. -/
def ifEnter (s : Builder) (conditionId : Nat) : Builder × Nat :=
  _addInstruction (scopeEnter s) .ForkIfFalse
    [.operand conditionId, .offset 1 0]

/-- Mirror of _RemoteIfBlockBuilder.__exit__: set the ForkIfFalse offset to
(index of the next instruction to be appended) minus (the condition
instruction's index), then record this scope as just exited. -/
def ifExit (s : Builder) (conditionInstructionIndex : Nat) : Builder :=
  let nextInstructionIndex := s.instructions.length
  let relativeJumpOffset :=
    (nextInstructionIndex : Int) - (conditionInstructionIndex : Int)
  scopeExit (patchOffset s conditionInstructionIndex 1 (fun _ => relativeJumpOffset))
    (.ifScope conditionInstructionIndex)

/-- Mirror of _RemoteElseBlockBuilder.__enter__: fail unless the scope just
exited is an If block; otherwise clear the marker, emit an unconditional Fork
with a sentinel offset of 1 right after the If block, and increment the If's
false-branch offset by one to account for the new jump.  Returns the recorded
jump-instruction index. -/
def elseEnter (s : Builder) : Except String (Builder × Nat) :=
  match s.scopeJustExited with
  | some (.ifScope conditionInstructionIndex) =>
    let p := _addInstruction (scopeEnter s) .Fork [.offset 1 0]
    .ok (patchOffset p.1 conditionInstructionIndex 1 (fun v => v + 1), p.2)
  | _ => .error "Else block not directly preceded by If block"

/-- Mirror of _RemoteElseBlockBuilder.__exit__: set the Fork offset to (index
of the next instruction to be appended) minus (the jump instruction's index),
then record this scope as just exited. -/
def elseExit (s : Builder) (jumpInstructionIndex : Nat) : Builder :=
  let nextInstructionIndex := s.instructions.length
  let relativeJumpOffset :=
    (nextInstructionIndex : Int) - (jumpInstructionIndex : Int)
  scopeExit (patchOffset s jumpInstructionIndex 0 (fun _ => relativeJumpOffset))
    (.elseScope jumpInstructionIndex)

/-- Mirror of the first half of _RemoteWhileBlockBuilder.__enter__: clear the
marker and emit NewLoopBlock with two sentinel offsets of 1; returns the
recorded loop-block instruction index.  The builder then runs the caller's
condition-builder function and enters an inner If block on the resulting
condition (composed explicitly in the theorems, since the condition builder is
arbitrary caller code). -/
def whileEnterPre (s : Builder) : Builder × Nat :=
  _addInstruction (scopeEnter s) .NewLoopBlock
    [.offset 1 0, .offset 1 0]

/-- Mirror of _RemoteWhileBlockBuilder.__exit__: emit a Fork whose offset is
(the loop-block instruction's index) minus (the current last instruction's
index), exit the inner If block, emit EndLoopBlock, set the loop block's break
offset to (index of the next instruction to be appended) minus (the loop-block
instruction's index), and record this scope as just exited. -/
def whileExit (s : Builder) (newLoopBlockInstructionIndex : Nat)
    (ifConditionInstructionIndex : Nat) : Builder :=
  let relativeContinueOffset :=
    (newLoopBlockInstructionIndex : Int) - ((s.instructions.length : Int) - 1)
  let s1 := (_addInstruction s .Fork [.offset relativeContinueOffset 0]).1
  let s2 := ifExit s1 ifConditionInstructionIndex
  let s3 := (_addInstruction s2 .EndLoopBlock []).1
  let relativeBreakOffset :=
    (s3.instructions.length : Int) - (newLoopBlockInstructionIndex : Int)
  scopeExit
    (patchOffset s3 newLoopBlockInstructionIndex 0 (fun _ => relativeBreakOffset))
    (.whileScope newLoopBlockInstructionIndex)

/-- Mirror of _RemoteTryBlockBuilder.__enter__: clear the marker and emit
NewTryBlock with a sentinel catch offset of 1; returns the recorded
instruction index. -/
def tryEnter (s : Builder) : Builder × Nat :=
  _addInstruction (scopeEnter s) .NewTryBlock [.offset 1 0]

/-- Mirror of _RemoteTryBlockBuilder.__exit__: emit EndTryBlock, set the catch
offset to (index of the next instruction to be appended) minus (the try-block
instruction's index), and record this scope as just exited. -/
def tryExit (s : Builder) (newTryBlockInstructionIndex : Nat) : Builder :=
  let s1 := (_addInstruction s .EndTryBlock []).1
  let relativeCatchOffset :=
    (s1.instructions.length : Int) - (newTryBlockInstructionIndex : Int)
  scopeExit
    (patchOffset s1 newTryBlockInstructionIndex 0 (fun _ => relativeCatchOffset))
    (.tryScope newTryBlockInstructionIndex)

/-- Mirror of _RemoteCatchBlockBuilder.__enter__: fail unless the scope just
exited is a Try block; otherwise clear the marker, emit an unconditional Fork
with a sentinel offset of 1 to skip the catch body, and increment the Try's
catch offset by one to account for the new jump.  Returns the recorded
jump-instruction index. -/
def catchEnter (s : Builder) : Except String (Builder × Nat) :=
  match s.scopeJustExited with
  | some (.tryScope newTryBlockInstructionIndex) =>
    let p := _addInstruction (scopeEnter s) .Fork [.offset 1 0]
    .ok (patchOffset p.1 newTryBlockInstructionIndex 0 (fun v => v + 1), p.2)
  | _ => .error "Catch block not directly preceded by Try block"

/-- Mirror of _RemoteCatchBlockBuilder.__exit__: set the Fork offset to (index
of the next instruction to be appended) minus (the jump instruction's index),
then record this scope as just exited. -/
def catchExit (s : Builder) (jumpInstructionIndex : Nat) : Builder :=
  let nextInstructionIndex := s.instructions.length
  let relativeJumpOffset :=
    (nextInstructionIndex : Int) - (jumpInstructionIndex : Int)
  scopeExit (patchOffset s jumpInstructionIndex 0 (fun _ => relativeJumpOffset))
    (.catchScope jumpInstructionIndex)

/-- Little-endian serialization of a c_long value: 4 bytes of the value
reduced modulo 2^32 (struct.pack with format l). -/
def pack4 (v : Int) : List Nat :=
  [(v % 4294967296).toNat % 256,
   (v % 4294967296).toNat / 256 % 256,
   (v % 4294967296).toNat / 65536 % 256,
   (v % 4294967296).toNat / 16777216 % 256]

/-- Little-endian serialization of one UTF-16 code unit (c_wchar, 2 bytes). -/
def pack2 (u : Nat) : List Nat :=
  [u % 256, u / 256 % 256]

/-- Raw ctypes bytes of a parameter as read from its memory: c_long fields are
4 bytes, c_bool one byte, a c_wchar array is its code units (terminator
included) at 2 bytes each, a GUID its 16 raw bytes.  The patch counter of an
offset cell is bookkeeping of the model, not part of the value. -/
def paramRawBytes : Param → List Nat
  | .operand id => pack4 (id : Int)
  | .intVal v => pack4 v
  | .boolVal b => [if b then 1 else 0]
  | .offset v _ => pack4 v
  | .text buf => (buf.map pack2).flatten
  | .guid bytes16 => bytes16

/-- Per-parameter serialization inside _generateByteCode's inner loop: a
c_wchar array parameter is emitted as a 4-byte length of (array length minus
one) followed by its raw bytes with the last two (the terminator) sliced off;
every other parameter is emitted as its raw bytes. -/
def encodeParam (p : Param) : List Nat :=
  match p with
  | .text buf =>
    pack4 ((buf.length : Int) - 1) ++
      (paramRawBytes (.text buf)).take ((paramRawBytes (.text buf)).length - 2)
  | _ => paramRawBytes p

/-- Serialization of one instruction: 4-byte opcode followed by each
parameter's encoding in order. -/
def encodeInstruction (r : InstructionRecord) : List Nat :=
  pack4 ((opcodeOf r.instructionType : Int)) ++
    (r.params.map encodeParam).flatten

/-- Mirror of RemoteOperationBuilder._generateByteCode: fold over the
instruction list, appending the opcode then each parameter's encoding to the
accumulated byte string. -/
def _generateByteCode (instrs : List InstructionRecord) : List Nat :=
  instrs.foldl
    (fun acc r =>
      r.params.foldl (fun acc2 p => acc2 ++ encodeParam p)
        (acc ++ pack4 ((opcodeOf r.instructionType : Int))))
    []

/-- Mirror of RemoteOperationBuilder._versionBytes (struct.pack of the long
value 0). -/
def _versionBytes : List Nat := pack4 0

/-- Status codes returned by the external engine
(lowLevel.RemoteOperationStatus; the spec fixes exactly these five). -/
inductive RemoteOperationStatus where
  | Success
  | MalformedBytecode
  | InstructionLimitExceeded
  | UnhandledException
  | ExecutionFailure
  deriving DecidableEq, Repr

/-- Result of one engine call: status, failing-instruction index (valid for
UnhandledException) and the engine-native extended error code. -/
structure RemoteOperationResult where
  status : RemoteOperationStatus
  errorLocation : Int
  extendedError : Int
  deriving DecidableEq, Repr

/-- Outcome of RemoteOperationBuilder.execute: normal return, or one of the
four typed exceptions; RemoteException carries the failing instruction's index
and the extended error as its diagnostics. -/
inductive ExecOutcome where
  | success
  | malformedBytecodeException
  | instructionLimitExceededException
  | remoteException (errorLocation : Int) (extendedError : Int)
  | executionFailureException
  deriving DecidableEq, Repr

/-- Mirror of RemoteOperationBuilder.execute: append the terminating Halt,
serialize the stream behind the version header, make the single engine call,
and map the returned status to an outcome.  The engine is a function from the
submitted payload to its result, and the list of calls made is returned
explicitly so the single-call property is statable. -/
def execute (s : Builder) (engine : List Nat → RemoteOperationResult) :
    Builder × List (List Nat) × ExecOutcome :=
  let s1 := halt s
  let byteCode := _generateByteCode s1.instructions
  let payload := _versionBytes ++ byteCode
  let results := engine payload
  (s1, [payload],
    match results.status with
    | .MalformedBytecode => .malformedBytecodeException
    | .InstructionLimitExceeded => .instructionLimitExceededException
    | .UnhandledException =>
      .remoteException results.errorLocation results.extendedError
    | .ExecutionFailure => .executionFailureException
    | .Success => .success)

/-- One observable builder action affecting the last-exited-scope marker:
appending an instruction, entering a scope, or exiting a scope. -/
inductive BuilderEvent where
  | addInstr (t : InstructionType) (ps : List Param)
  | enter
  | exit (sc : Scope)
  deriving DecidableEq, Repr

/-- Apply one event to the builder state using the embedded operations. -/
def applyEvent (s : Builder) : BuilderEvent → Builder
  | .addInstr t ps => (_addInstruction s t ps).1
  | .enter => scopeEnter s
  | .exit sc => scopeExit s sc

/-- Run a sequence of builder events. -/
def runEvents (s : Builder) (evs : List BuilderEvent) : Builder :=
  evs.foldl applyEvent s

/-- The marker value each event leaves behind. -/
def eventMarker : BuilderEvent → Option Scope
  | .addInstr _ _ => none
  | .enter => none
  | .exit sc => some sc

/-! Basic bookkeeping lemmas about the embedded operations. -/

theorem addInstruction_instructions (s : Builder) (t : InstructionType)
    (ps : List Param) :
    (_addInstruction s t ps).1.instructions = s.instructions ++ [⟨t, ps, ""⟩] :=
  rfl

theorem addInstruction_idx (s : Builder) (t : InstructionType) (ps : List Param) :
    (_addInstruction s t ps).2 = s.instructions.length :=
  rfl

theorem addInstruction_length (s : Builder) (t : InstructionType)
    (ps : List Param) :
    (_addInstruction s t ps).1.instructions.length = s.instructions.length + 1 := by
  simp [_addInstruction]

theorem scopeExit_instructions (s : Builder) (sc : Scope) :
    (scopeExit s sc).instructions = s.instructions :=
  rfl

theorem patchOffset_length (s : Builder) (i p : Nat) (f : Int → Int) :
    (patchOffset s i p f).instructions.length = s.instructions.length := by
  unfold patchOffset
  split
  · rfl
  · split
    · simp
    · rfl

theorem getParam_scopeExit (s : Builder) (sc : Scope) (i p : Nat) :
    getParam (scopeExit s sc) i p = getParam s i p :=
  rfl

theorem getParam_append_left {s s' : Builder} {tl : List InstructionRecord}
    (h : s'.instructions = s.instructions ++ tl) (i p : Nat)
    (hi : i < s.instructions.length) :
    getParam s' i p = getParam s i p := by
  unfold getParam getInstr
  rw [h, List.getElem?_append_left hi]

theorem getParam_addInstruction_lt (s : Builder) (t : InstructionType)
    (ps : List Param) (i p : Nat) (hi : i < s.instructions.length) :
    getParam (_addInstruction s t ps).1 i p = getParam s i p :=
  getParam_append_left (addInstruction_instructions s t ps) i p hi

theorem getParam_addInstruction_self (s : Builder) (t : InstructionType)
    (ps : List Param) (p : Nat) :
    getParam (_addInstruction s t ps).1 s.instructions.length p = ps[p]? := by
  unfold getParam getInstr _addInstruction
  simp

theorem getParam_patchOffset_ne_instr (s : Builder) (i p i' p' : Nat)
    (f : Int → Int) (h : i' ≠ i) :
    getParam (patchOffset s i p f) i' p' = getParam s i' p' := by
  unfold patchOffset
  split
  · rfl
  · split
    · unfold getParam getInstr
      simp [List.getElem?_set_ne (fun hh => h hh.symm)]
    · rfl

theorem getParam_patchOffset_ne_param (s : Builder) (i p p' : Nat)
    (f : Int → Int) (h : p' ≠ p) :
    getParam (patchOffset s i p f) i p' = getParam s i p' := by
  unfold patchOffset
  split
  · rfl
  next r hr =>
    split
    next v c hp =>
      unfold getParam getInstr
      have hlt : i < s.instructions.length := by
        by_contra hge
        rw [List.getElem?_eq_none (Nat.le_of_not_lt hge)] at hr
        exact Option.noConfusion hr
      have hget : s.instructions[i] = r := by
        have h2 := hr
        rw [List.getElem?_eq_getElem hlt] at h2
        exact Option.some.inj h2
      simp [List.getElem?_set, hlt, List.getElem?_set_ne (fun hh => h hh.symm),
        hget]
    · rfl

theorem getParam_patchOffset_self (s : Builder) (i p : Nat) (f : Int → Int)
    (v : Int) (c : Nat) (h : getParam s i p = some (.offset v c)) :
    getParam (patchOffset s i p f) i p = some (.offset (f v) (c + 1)) := by
  unfold getParam getInstr at h
  unfold patchOffset
  split
  next hr =>
    rw [hr] at h
    exact Option.noConfusion h
  next r hr =>
    rw [hr] at h
    rw [Option.some_bind] at h
    split
    next v' c' hp =>
      rw [hp] at h
      have hvc : v' = v ∧ c' = c := by
        have := Option.some.inj h
        cases this
        exact ⟨rfl, rfl⟩
      obtain ⟨rfl, rfl⟩ := hvc
      unfold getParam getInstr
      have hlt : i < s.instructions.length := by
        by_contra hge
        rw [List.getElem?_eq_none (Nat.le_of_not_lt hge)] at hr
        exact Option.noConfusion hr
      have hplt : p < r.params.length := by
        by_contra hge
        rw [List.getElem?_eq_none (Nat.le_of_not_lt hge)] at hp
        exact Option.noConfusion hp
      simp [List.getElem?_set, hlt, hplt]
    next hne =>
      rw [h] at hne
      exact absurd rfl (hne v c)

theorem ifEnter_idx (s : Builder) (c : Nat) :
    (ifEnter s c).2 = s.instructions.length :=
  rfl

theorem ifEnter_instructions (s : Builder) (c : Nat) :
    (ifEnter s c).1.instructions =
      s.instructions ++ [⟨.ForkIfFalse, [.operand c, .offset 1 0], ""⟩] :=
  rfl

theorem ifExit_instructions_length (s : Builder) (i : Nat) :
    (ifExit s i).instructions.length = s.instructions.length := by
  simp [ifExit, scopeExit_instructions, patchOffset_length]

/-- Offsets and patch counts of a fully built If/Else construction: the builder
enters the If on a condition operand, the body appends ifBody, the If exits,
the Else is entered with no intervening instruction, the else body appends
elseBody, and the Else exits. -/
theorem ifElseFacts (s0 : Builder) (conditionId : Nat)
    (ifBody elseBody : List InstructionRecord) (s2 s4 s5 : Builder) (J : Nat)
    (h2 : s2.instructions = (ifEnter s0 conditionId).1.instructions ++ ifBody)
    (hE : elseEnter (ifExit s2 s0.instructions.length) = .ok (s4, J))
    (h5 : s5.instructions = s4.instructions ++ elseBody) :
    getParam (ifExit s2 s0.instructions.length) s0.instructions.length 1 =
      some (.offset ((s2.instructions.length : Int) - (s0.instructions.length : Int)) 1) ∧
    (ifExit s2 s0.instructions.length).instructions.length = s2.instructions.length ∧
    J = s2.instructions.length ∧
    s4.instructions.length = J + 1 ∧
    getParam s4 s0.instructions.length 1 =
      some (.offset (((s2.instructions.length : Int) - (s0.instructions.length : Int)) + 1) 2) ∧
    getParam (elseExit s5 J) s0.instructions.length 1 =
      some (.offset (((s2.instructions.length : Int) - (s0.instructions.length : Int)) + 1) 2) ∧
    getParam (elseExit s5 J) J 0 =
      some (.offset ((s5.instructions.length : Int) - (J : Int)) 1) ∧
    (elseExit s5 J).instructions.length = s5.instructions.length := by
  set I := s0.instructions.length with hIdef
  have hlen2 : s2.instructions.length = I + 1 + ifBody.length := by
    rw [h2, ifEnter_instructions]
    simp [hIdef]
    omega
  have hIlt2 : I < s2.instructions.length := by omega
  -- the sentinel offset of the ForkIfFalse instruction before the If exit
  have hA : getParam s2 I 1 = some (.offset 1 0) := by
    have h1 : getParam s2 I 1 = getParam (ifEnter s0 conditionId).1 I 1 :=
      getParam_append_left h2 I 1 (by rw [ifEnter_instructions]; simp)
    rw [h1]
    exact getParam_addInstruction_self (scopeEnter s0) .ForkIfFalse
      [.operand conditionId, .offset 1 0] 1
  -- the If exit patches it to nextIndex - conditionIndex
  have hB : getParam (ifExit s2 I) I 1 =
      some (.offset ((s2.instructions.length : Int) - (I : Int)) 1) := by
    unfold ifExit
    rw [getParam_scopeExit]
    exact getParam_patchOffset_self s2 I 1 _ 1 0 hA
  have hlen3 : (ifExit s2 I).instructions.length = s2.instructions.length :=
    ifExit_instructions_length s2 I
  -- the Else entry reduces on the recorded If scope
  have hE' : elseEnter (ifExit s2 I) =
      .ok (patchOffset
          ((_addInstruction (scopeEnter (ifExit s2 I)) .Fork [.offset 1 0]).1)
          I 1 (fun v => v + 1),
        (ifExit s2 I).instructions.length) := rfl
  rw [hE'] at hE
  simp only [Except.ok.injEq, Prod.mk.injEq] at hE
  obtain ⟨hs4, hJ⟩ := hE
  have hJval : J = s2.instructions.length := by rw [← hJ, hlen3]
  -- facts about the state after Else entry
  have hP : ((_addInstruction (scopeEnter (ifExit s2 I)) .Fork [.offset 1 0]).1).instructions =
      (ifExit s2 I).instructions ++ [⟨.Fork, [.offset 1 0], ""⟩] := rfl
  have hlen4 : s4.instructions.length = J + 1 := by
    rw [← hs4, patchOffset_length, hP]
    simp [hlen3, hJval]
  have hD1 : getParam s4 I 1 =
      some (.offset (((s2.instructions.length : Int) - (I : Int)) + 1) 2) := by
    rw [← hs4]
    have hmid : getParam ((_addInstruction (scopeEnter (ifExit s2 I)) .Fork
        [.offset 1 0]).1) I 1 = getParam (ifExit s2 I) I 1 := by
      apply getParam_append_left hP
      omega
    exact getParam_patchOffset_self _ I 1 _ _ 1 (by rw [hmid, hB])
  have hD2 : getParam s4 J 0 = some (.offset 1 0) := by
    rw [← hs4]
    rw [getParam_patchOffset_ne_instr _ I 1 J 0 _ (by omega)]
    have hJeq : J = (scopeEnter (ifExit s2 I)).instructions.length := by
      simpa [scopeEnter] using hJ.symm
    rw [hJeq]
    exact getParam_addInstruction_self (scopeEnter (ifExit s2 I)) .Fork
      [.offset 1 0] 0
  -- the else body only appends
  have hE1 : getParam s5 I 1 = getParam s4 I 1 :=
    getParam_append_left h5 I 1 (by omega)
  have hE2 : getParam s5 J 0 = getParam s4 J 0 :=
    getParam_append_left h5 J 0 (by omega)
  -- the Else exit patches the trailing Fork
  have hF1 : getParam (elseExit s5 J) J 0 =
      some (.offset ((s5.instructions.length : Int) - (J : Int)) 1) := by
    unfold elseExit
    rw [getParam_scopeExit]
    exact getParam_patchOffset_self s5 J 0 _ 1 0 (by rw [hE2, hD2])
  have hF2 : getParam (elseExit s5 J) I 1 =
      some (.offset (((s2.instructions.length : Int) - (I : Int)) + 1) 2) := by
    unfold elseExit
    rw [getParam_scopeExit]
    rw [getParam_patchOffset_ne_instr _ J 0 I 1 _ (by omega)]
    rw [hE1, hD1]
  have hF3 : (elseExit s5 J).instructions.length = s5.instructions.length := by
    simp [elseExit, scopeExit_instructions, patchOffset_length]
  exact ⟨hB, hlen3, hJval, hlen4, hD1, hF2, hF1, hF3⟩

theorem whileEnterPre_idx (s : Builder) :
    (whileEnterPre s).2 = s.instructions.length :=
  rfl

theorem whileEnterPre_instructions (s : Builder) :
    (whileEnterPre s).1.instructions =
      s.instructions ++ [⟨.NewLoopBlock, [.offset 1 0, .offset 1 0], ""⟩] :=
  rfl

/-- Offsets and patch counts of a fully built While construction: the builder
emits the NewLoopBlock, the caller's condition builder appends condInstrs and
yields the condition operand, the inner If block is entered, the loop body
appends bodyInstrs, and the While exit runs (closing Fork, inner If exit,
EndLoopBlock, break-offset backpatch). -/
theorem whileFacts (s0 : Builder) (conditionId : Nat)
    (condInstrs bodyInstrs : List InstructionRecord) (s2 s4 : Builder)
    (h2 : s2.instructions = (whileEnterPre s0).1.instructions ++ condInstrs)
    (h4 : s4.instructions = (ifEnter s2 conditionId).1.instructions ++ bodyInstrs) :
    getParam (whileExit s4 s0.instructions.length s2.instructions.length)
        s4.instructions.length 0 =
      some (.offset ((s0.instructions.length : Int) -
        ((s4.instructions.length : Int) - 1)) 0) ∧
    getParam (whileExit s4 s0.instructions.length s2.instructions.length)
        s0.instructions.length 0 =
      some (.offset (((s4.instructions.length : Int) + 2) -
        (s0.instructions.length : Int)) 1) ∧
    getParam (whileExit s4 s0.instructions.length s2.instructions.length)
        s0.instructions.length 1 =
      some (.offset 1 0) ∧
    getParam (whileExit s4 s0.instructions.length s2.instructions.length)
        s2.instructions.length 1 =
      some (.offset (((s4.instructions.length : Int) + 1) -
        (s2.instructions.length : Int)) 1) ∧
    (whileExit s4 s0.instructions.length s2.instructions.length).instructions.length =
      s4.instructions.length + 2 ∧
    s0.instructions.length + 2 ≤ s4.instructions.length ∧
    s0.instructions.length < s2.instructions.length ∧
    s2.instructions.length < s4.instructions.length := by
  set L := s0.instructions.length with hLdef
  set I := s2.instructions.length with hIdef
  set F := s4.instructions.length with hFdef
  have hlen2 : I = L + 1 + condInstrs.length := by
    rw [hIdef, h2, whileEnterPre_instructions]
    simp [hLdef]
    omega
  have hlenF : F = I + 1 + bodyInstrs.length := by
    rw [hFdef, h4, ifEnter_instructions]
    simp [hIdef]
    omega
  -- origins of the three offset cells present before the While exit
  have hL0 : getParam s4 L 0 = some (.offset 1 0) := by
    rw [getParam_append_left h4 L 0 (by rw [ifEnter_instructions]; simp; omega)]
    rw [getParam_append_left (ifEnter_instructions s2 conditionId) L 0 (by omega)]
    rw [getParam_append_left h2 L 0 (by rw [whileEnterPre_instructions]; simp)]
    exact getParam_addInstruction_self (scopeEnter s0) .NewLoopBlock
      [.offset 1 0, .offset 1 0] 0
  have hL1 : getParam s4 L 1 = some (.offset 1 0) := by
    rw [getParam_append_left h4 L 1 (by rw [ifEnter_instructions]; simp; omega)]
    rw [getParam_append_left (ifEnter_instructions s2 conditionId) L 1 (by omega)]
    rw [getParam_append_left h2 L 1 (by rw [whileEnterPre_instructions]; simp)]
    exact getParam_addInstruction_self (scopeEnter s0) .NewLoopBlock
      [.offset 1 0, .offset 1 0] 1
  have hI1 : getParam s4 I 1 = some (.offset 1 0) := by
    rw [getParam_append_left h4 I 1 (by rw [ifEnter_instructions]; simp)]
    exact getParam_addInstruction_self (scopeEnter s2) .ForkIfFalse
      [.operand conditionId, .offset 1 0] 1
  -- the intermediate states of the While exit
  set s1' := (_addInstruction s4 .Fork
    [.offset ((L : Int) - ((F : Int) - 1)) 0]).1 with hs1
  set s2' := ifExit s1' I with hs2
  set s3' := (_addInstruction s2' .EndLoopBlock []).1 with hs3
  have hfin : whileExit s4 L I =
      scopeExit (patchOffset s3' L 0
        (fun _ => (s3'.instructions.length : Int) - (L : Int)))
        (.whileScope L) := rfl
  have hlen1 : s1'.instructions.length = F + 1 := by
    rw [hs1, addInstruction_length, hFdef]
  have hlen2' : s2'.instructions.length = F + 1 := by
    rw [hs2, ifExit_instructions_length, hlen1]
  have hlen3 : s3'.instructions.length = F + 2 := by
    rw [hs3, addInstruction_length, hlen2']
  -- cell values in the intermediate states
  have h1L0 : getParam s1' L 0 = some (.offset 1 0) := by
    rw [hs1, getParam_addInstruction_lt s4 _ _ L 0 (by omega), hL0]
  have h1L1 : getParam s1' L 1 = some (.offset 1 0) := by
    rw [hs1, getParam_addInstruction_lt s4 _ _ L 1 (by omega), hL1]
  have h1I1 : getParam s1' I 1 = some (.offset 1 0) := by
    rw [hs1, getParam_addInstruction_lt s4 _ _ I 1 (by omega), hI1]
  have h1F0 : getParam s1' F 0 =
      some (.offset ((L : Int) - ((F : Int) - 1)) 0) := by
    rw [hs1, hFdef]
    exact getParam_addInstruction_self s4 .Fork _ 0
  have h2I1 : getParam s2' I 1 =
      some (.offset (((F : Int) + 1) - (I : Int)) 1) := by
    rw [hs2]
    unfold ifExit
    rw [getParam_scopeExit, getParam_patchOffset_self s1' I 1 _ 1 0 h1I1]
    simp only [Option.some.injEq, Param.offset.injEq]
    rw [hlen1]
    refine ⟨by push_cast; ring, trivial⟩
  have h2L0 : getParam s2' L 0 = some (.offset 1 0) := by
    rw [hs2]
    unfold ifExit
    rw [getParam_scopeExit, getParam_patchOffset_ne_instr _ I 1 L 0 _ (by omega),
      h1L0]
  have h2L1 : getParam s2' L 1 = some (.offset 1 0) := by
    rw [hs2]
    unfold ifExit
    rw [getParam_scopeExit, getParam_patchOffset_ne_instr _ I 1 L 1 _ (by omega),
      h1L1]
  have h2F0 : getParam s2' F 0 =
      some (.offset ((L : Int) - ((F : Int) - 1)) 0) := by
    rw [hs2]
    unfold ifExit
    rw [getParam_scopeExit, getParam_patchOffset_ne_instr _ I 1 F 0 _ (by omega),
      h1F0]
  have h3L0 : getParam s3' L 0 = some (.offset 1 0) := by
    rw [hs3, getParam_addInstruction_lt s2' _ _ L 0 (by omega), h2L0]
  have h3L1 : getParam s3' L 1 = some (.offset 1 0) := by
    rw [hs3, getParam_addInstruction_lt s2' _ _ L 1 (by omega), h2L1]
  have h3I1 : getParam s3' I 1 =
      some (.offset (((F : Int) + 1) - (I : Int)) 1) := by
    rw [hs3, getParam_addInstruction_lt s2' _ _ I 1 (by omega), h2I1]
  have h3F0 : getParam s3' F 0 =
      some (.offset ((L : Int) - ((F : Int) - 1)) 0) := by
    rw [hs3, getParam_addInstruction_lt s2' _ _ F 0 (by omega), h2F0]
  -- final state facts
  refine ⟨?_, ?_, ?_, ?_, ?_, by omega, by omega, by omega⟩
  · rw [hfin, getParam_scopeExit,
      getParam_patchOffset_ne_instr _ L 0 F 0 _ (by omega), h3F0]
  · rw [hfin, getParam_scopeExit, getParam_patchOffset_self s3' L 0 _ 1 0 h3L0]
    simp only [Option.some.injEq, Param.offset.injEq]
    rw [hlen3]
    refine ⟨by push_cast; ring, trivial⟩
  · rw [hfin, getParam_scopeExit,
      getParam_patchOffset_ne_param _ L 0 1 _ (by omega), h3L1]
  · rw [hfin, getParam_scopeExit,
      getParam_patchOffset_ne_instr _ L 0 I 1 _ (by omega), h3I1]
  · rw [hfin, scopeExit_instructions, patchOffset_length, hlen3]

theorem tryEnter_idx (s : Builder) :
    (tryEnter s).2 = s.instructions.length :=
  rfl

theorem tryEnter_instructions (s : Builder) :
    (tryEnter s).1.instructions =
      s.instructions ++ [⟨.NewTryBlock, [.offset 1 0], ""⟩] :=
  rfl

/-- Offsets and patch counts of a fully built Try/Catch construction: the
builder enters the Try, the body appends tryBody, the Try exits (emitting
EndTryBlock and backpatching the catch offset), the Catch is entered with no
intervening instruction, the catch body appends catchBody, and the Catch
exits. -/
theorem tryCatchFacts (s0 : Builder)
    (tryBody catchBody : List InstructionRecord) (s2 s4 s5 : Builder) (J : Nat)
    (h2 : s2.instructions = (tryEnter s0).1.instructions ++ tryBody)
    (hC : catchEnter (tryExit s2 s0.instructions.length) = .ok (s4, J))
    (h5 : s5.instructions = s4.instructions ++ catchBody) :
    getParam (tryExit s2 s0.instructions.length) s0.instructions.length 0 =
      some (.offset (((s2.instructions.length : Int) + 1) -
        (s0.instructions.length : Int)) 1) ∧
    (tryExit s2 s0.instructions.length).instructions.length =
      s2.instructions.length + 1 ∧
    J = s2.instructions.length + 1 ∧
    s4.instructions.length = J + 1 ∧
    getParam s4 s0.instructions.length 0 =
      some (.offset ((((s2.instructions.length : Int) + 1) -
        (s0.instructions.length : Int)) + 1) 2) ∧
    getParam (catchExit s5 J) s0.instructions.length 0 =
      some (.offset ((((s2.instructions.length : Int) + 1) -
        (s0.instructions.length : Int)) + 1) 2) ∧
    getParam (catchExit s5 J) J 0 =
      some (.offset ((s5.instructions.length : Int) - (J : Int)) 1) ∧
    (catchExit s5 J).instructions.length = s5.instructions.length := by
  set T := s0.instructions.length with hTdef
  have hlen2 : s2.instructions.length = T + 1 + tryBody.length := by
    rw [h2, tryEnter_instructions]
    simp [hTdef]
    omega
  have hTlt2 : T < s2.instructions.length := by omega
  -- the sentinel catch offset before the Try exit
  have hA : getParam s2 T 0 = some (.offset 1 0) := by
    have h1 : getParam s2 T 0 = getParam (tryEnter s0).1 T 0 :=
      getParam_append_left h2 T 0 (by rw [tryEnter_instructions]; simp)
    rw [h1]
    exact getParam_addInstruction_self (scopeEnter s0) .NewTryBlock
      [.offset 1 0] 0
  -- intermediate state of the Try exit
  set s1' := (_addInstruction s2 .EndTryBlock []).1 with hs1
  have hfin3 : tryExit s2 T =
      scopeExit (patchOffset s1' T 0
        (fun _ => (s1'.instructions.length : Int) - (T : Int)))
        (.tryScope T) := rfl
  have hlen1 : s1'.instructions.length = s2.instructions.length + 1 := by
    rw [hs1, addInstruction_length]
  have h1A : getParam s1' T 0 = some (.offset 1 0) := by
    rw [hs1, getParam_addInstruction_lt s2 _ _ T 0 (by omega), hA]
  have hB : getParam (tryExit s2 T) T 0 =
      some (.offset (((s2.instructions.length : Int) + 1) - (T : Int)) 1) := by
    rw [hfin3, getParam_scopeExit, getParam_patchOffset_self s1' T 0 _ 1 0 h1A]
    simp only [Option.some.injEq, Param.offset.injEq]
    rw [hlen1]
    refine ⟨by push_cast; ring, trivial⟩
  have hlen3 : (tryExit s2 T).instructions.length = s2.instructions.length + 1 := by
    rw [hfin3, scopeExit_instructions, patchOffset_length, hlen1]
  -- the Catch entry reduces on the recorded Try scope
  have hC' : catchEnter (tryExit s2 T) =
      .ok (patchOffset
          ((_addInstruction (scopeEnter (tryExit s2 T)) .Fork [.offset 1 0]).1)
          T 0 (fun v => v + 1),
        (tryExit s2 T).instructions.length) := rfl
  rw [hC'] at hC
  simp only [Except.ok.injEq, Prod.mk.injEq] at hC
  obtain ⟨hs4, hJ⟩ := hC
  have hJval : J = s2.instructions.length + 1 := by rw [← hJ, hlen3]
  have hP : ((_addInstruction (scopeEnter (tryExit s2 T)) .Fork [.offset 1 0]).1).instructions =
      (tryExit s2 T).instructions ++ [⟨.Fork, [.offset 1 0], ""⟩] := rfl
  have hlen4 : s4.instructions.length = J + 1 := by
    rw [← hs4, patchOffset_length, hP]
    simp [hlen3, hJval]
  have hD1 : getParam s4 T 0 =
      some (.offset ((((s2.instructions.length : Int) + 1) - (T : Int)) + 1) 2) := by
    rw [← hs4]
    have hmid : getParam ((_addInstruction (scopeEnter (tryExit s2 T)) .Fork
        [.offset 1 0]).1) T 0 = getParam (tryExit s2 T) T 0 := by
      apply getParam_append_left hP
      omega
    exact getParam_patchOffset_self _ T 0 _ _ 1 (by rw [hmid, hB])
  have hD2 : getParam s4 J 0 = some (.offset 1 0) := by
    rw [← hs4]
    rw [getParam_patchOffset_ne_instr _ T 0 J 0 _ (by omega)]
    have hJeq : J = (scopeEnter (tryExit s2 T)).instructions.length := by
      simpa [scopeEnter] using hJ.symm
    rw [hJeq]
    exact getParam_addInstruction_self (scopeEnter (tryExit s2 T)) .Fork
      [.offset 1 0] 0
  have hE1 : getParam s5 T 0 = getParam s4 T 0 :=
    getParam_append_left h5 T 0 (by omega)
  have hE2 : getParam s5 J 0 = getParam s4 J 0 :=
    getParam_append_left h5 J 0 (by omega)
  have hF1 : getParam (catchExit s5 J) J 0 =
      some (.offset ((s5.instructions.length : Int) - (J : Int)) 1) := by
    unfold catchExit
    rw [getParam_scopeExit]
    exact getParam_patchOffset_self s5 J 0 _ 1 0 (by rw [hE2, hD2])
  have hF2 : getParam (catchExit s5 J) T 0 =
      some (.offset ((((s2.instructions.length : Int) + 1) - (T : Int)) + 1) 2) := by
    unfold catchExit
    rw [getParam_scopeExit]
    rw [getParam_patchOffset_ne_instr _ J 0 T 0 _ (by omega)]
    rw [hE1, hD1]
  have hF3 : (catchExit s5 J).instructions.length = s5.instructions.length := by
    simp [catchExit, scopeExit_instructions, patchOffset_length]
  exact ⟨hB, hlen3, hJval, hlen4, hD1, hF2, hF1, hF3⟩

theorem runEvents_append_single (s : Builder) (evs : List BuilderEvent)
    (e : BuilderEvent) :
    runEvents s (evs ++ [e]) = applyEvent (runEvents s evs) e := by
  unfold runEvents
  rw [List.foldl_append]
  rfl

theorem applyEvent_marker (s : Builder) (e : BuilderEvent) :
    (applyEvent s e).scopeJustExited = eventMarker e := by
  cases e <;> rfl

theorem elseEnter_ok_iff (s : Builder) :
    (∃ r, elseEnter s = .ok r) ↔ ∃ i, s.scopeJustExited = some (.ifScope i) := by
  obtain ⟨ins, nid, sje, cache⟩ := s
  unfold elseEnter
  rcases sje with _ | sc
  · simp
  · cases sc <;> simp

theorem catchEnter_ok_iff (s : Builder) :
    (∃ r, catchEnter s = .ok r) ↔ ∃ i, s.scopeJustExited = some (.tryScope i) := by
  obtain ⟨ins, nid, sje, cache⟩ := s
  unfold catchEnter
  rcases sje with _ | sc
  · simp
  · cases sc <;> simp

theorem foldl_append_map {α β : Type} (f : α → List β) (l : List α)
    (acc : List β) :
    l.foldl (fun a x => a ++ f x) acc = acc ++ (l.map f).flatten := by
  induction l generalizing acc with
  | nil => simp
  | cons x t ih => simp [ih]

theorem generateByteCode_aux (instrs : List InstructionRecord)
    (acc : List Nat) :
    instrs.foldl
      (fun acc r =>
        r.params.foldl (fun acc2 p => acc2 ++ encodeParam p)
          (acc ++ pack4 ((opcodeOf r.instructionType : Int)))) acc
    = acc ++ (instrs.map encodeInstruction).flatten := by
  induction instrs generalizing acc with
  | nil => simp
  | cons r rest ih =>
    simp only [List.foldl_cons, List.map_cons, List.flatten_cons]
    rw [foldl_append_map, ih]
    simp [encodeInstruction]

theorem generateByteCode_eq (instrs : List InstructionRecord) :
    _generateByteCode instrs = (instrs.map encodeInstruction).flatten := by
  unfold _generateByteCode
  rw [generateByteCode_aux]
  simp

theorem flatten_pack2_length (u : List Nat) :
    ((u.map pack2).flatten).length = 2 * u.length := by
  induction u with
  | nil => simp
  | cons a t ih =>
    simp [pack2, ih]
    ring

theorem encodeParam_text (u : List Nat) :
    encodeParam (.text (u ++ [0])) =
      pack4 (u.length : Int) ++ (u.map pack2).flatten := by
  show pack4 (((u ++ [0]).length : Int) - 1) ++
      ((((u ++ [0]).map pack2).flatten).take
        ((((u ++ [0]).map pack2).flatten).length - 2)) = _
  have hsplit : ((u ++ [0]).map pack2).flatten =
      (u.map pack2).flatten ++ pack2 0 := by
    simp
  congr 1
  · congr 1
    simp
  · rw [hsplit]
    have hlen : ((u.map pack2).flatten ++ pack2 0).length =
        ((u.map pack2).flatten).length + 2 := by
      simp [pack2]
    rw [hlen]
    simp only [Nat.add_sub_cancel]
    exact List.take_left _ _

/-- Concrete state: an If entered on condition operand 1 from a fresh builder,
with an empty body. -/
def c1s2 : Builder := (ifEnter initialBuilder 1).1

/-- Concrete state after entering the Else that follows: the ForkIfFalse
offset has been set at If exit and incremented at Else entry, and the trailing
Fork has been emitted with its sentinel offset. -/
def c1s4 : Builder :=
  { instructions :=
      [⟨.ForkIfFalse, [.operand 1, .offset 2 2], ""⟩,
       ⟨.Fork, [.offset 1 0], ""⟩]
    nextOperandId := 1
    scopeJustExited := none
    remotedObjectCache := [] }

/-- Concrete base state holding one remote bool operand (operand 1). -/
def c2base : Builder := (_newRemote initialBuilder (.pyBool false)).1

/-- Concrete state: a While entered from c2base (NewLoopBlock emitted), with a
condition builder that appends nothing and returns operand 1. -/
def c2s2 : Builder := (whileEnterPre c2base).1

/-- Concrete state: the inner If of the While entered, with an empty loop
body. -/
def c2s4 : Builder := (ifEnter c2s2 1).1

/-- Concrete final state of the While construction. -/
def c2fin : Builder :=
  whileExit c2s4 c2base.instructions.length c2s2.instructions.length

/-- Concrete state: a Try entered from a fresh builder, with an empty body. -/
def c5t2 : Builder := (tryEnter initialBuilder).1

/-- Concrete state after entering the Catch that follows. -/
def c5t4 : Builder :=
  { instructions :=
      [⟨.NewTryBlock, [.offset 3 2], ""⟩,
       ⟨.EndTryBlock, [], ""⟩,
       ⟨.Fork, [.offset 1 0], ""⟩]
    nextOperandId := 1
    scopeJustExited := none
    remotedObjectCache := [] }

/-- C1: for a well-formed If/Else construction (ifBody appended between If
enter and exit, Else entered immediately after, elseBody appended, Else
exited), the ForkIfFalse offset is set at If exit to (index of next
instruction to be appended) minus (its own index) — so with no Else it
targets the first instruction past the If body — and at Else entry it is
incremented by one, making it target J + 1, the first instruction of the Else
body (the slot right after the Fork emitted at index J); the Else's trailing
Fork offset is set at Else exit so that it targets the first instruction past
the Else body. -/
theorem ifElse_backpatch_targets (s0 : Builder) (conditionId : Nat)
    (ifBody elseBody : List InstructionRecord) (s2 s4 s5 : Builder) (J : Nat)
    (h2 : s2.instructions = (ifEnter s0 conditionId).1.instructions ++ ifBody)
    (hE : elseEnter (ifExit s2 s0.instructions.length) = .ok (s4, J))
    (h5 : s5.instructions = s4.instructions ++ elseBody) :
    getParam (ifExit s2 s0.instructions.length) s0.instructions.length 1 =
      some (.offset ((s2.instructions.length : Int) -
        (s0.instructions.length : Int)) 1) ∧
    (s0.instructions.length : Int) +
        ((s2.instructions.length : Int) - (s0.instructions.length : Int)) =
      ((ifExit s2 s0.instructions.length).instructions.length : Int) ∧
    getParam s4 s0.instructions.length 1 =
      some (.offset (((s2.instructions.length : Int) -
        (s0.instructions.length : Int)) + 1) 2) ∧
    (s0.instructions.length : Int) +
        (((s2.instructions.length : Int) - (s0.instructions.length : Int)) + 1) =
      (J : Int) + 1 ∧
    s4.instructions.length = J + 1 ∧
    getParam (elseExit s5 J) J 0 =
      some (.offset ((s5.instructions.length : Int) - (J : Int)) 1) ∧
    (J : Int) + ((s5.instructions.length : Int) - (J : Int)) =
      ((elseExit s5 J).instructions.length : Int) := by
  obtain ⟨hB, hlen3, hJval, hlen4, hD1, hF2, hF1, hF3⟩ :=
    ifElseFacts s0 conditionId ifBody elseBody s2 s4 s5 J h2 hE h5
  refine ⟨hB, ?_, hD1, ?_, hlen4, hF1, ?_⟩
  · rw [hlen3]
    ring
  · subst hJval
    ring
  · rw [hF3]
    ring

/-- Witness for C1: the If/Else construction over a fresh builder with empty
bodies; after Else entry the ForkIfFalse offset reads 2 with two patches. -/
theorem ifElse_backpatch_targets_witness :
    getParam c1s4 initialBuilder.instructions.length 1 =
      some (.offset (((c1s2.instructions.length : Int) -
        (initialBuilder.instructions.length : Int)) + 1) 2) :=
  (ifElse_backpatch_targets initialBuilder 1 [] [] c1s2 c1s4 c1s4 1
    (by simp [c1s2]) rfl (by simp)).2.2.1

/-- C2 counterexample: in a concrete While build the closing Fork sits at
index 3 with offset -1, so its index plus its offset is 2, which is not the
NewLoopBlock's index 1. -/
theorem whileContinueFork_counterexample :
    (getInstr c2fin 3).map (fun r => r.instructionType) = some .Fork ∧
    (getInstr c2fin 1).map (fun r => r.instructionType) = some .NewLoopBlock ∧
    getParam c2fin 3 0 = some (.offset (-1) 0) ∧
    ((3 : Int) + (-1) ≠ ((whileEnterPre c2base).2 : Int)) := by
  decide

/-- C2 (amended): for every While block, the closing Fork at index F carries
the negative offset L - (F - 1), so per the RelativeOffset semantics its
target F + offset is L + 1 — the instruction immediately after the
NewLoopBlock (where condition evaluation begins), not the NewLoopBlock
itself. -/
theorem whileContinueFork_amended (s0 : Builder) (conditionId : Nat)
    (condInstrs bodyInstrs : List InstructionRecord) (s2 s4 : Builder)
    (h2 : s2.instructions = (whileEnterPre s0).1.instructions ++ condInstrs)
    (h4 : s4.instructions = (ifEnter s2 conditionId).1.instructions ++ bodyInstrs) :
    getParam (whileExit s4 s0.instructions.length s2.instructions.length)
        s4.instructions.length 0 =
      some (.offset ((s0.instructions.length : Int) -
        ((s4.instructions.length : Int) - 1)) 0) ∧
    (s0.instructions.length : Int) - ((s4.instructions.length : Int) - 1) < 0 ∧
    (s4.instructions.length : Int) +
        ((s0.instructions.length : Int) - ((s4.instructions.length : Int) - 1)) =
      (s0.instructions.length : Int) + 1 := by
  obtain ⟨hFork, _, _, _, _, hb1, hb2, hb3⟩ :=
    whileFacts s0 conditionId condInstrs bodyInstrs s2 s4 h2 h4
  refine ⟨hFork, ?_, by ring⟩
  omega

/-- Witness for C2 (amended): the concrete While build; the closing Fork at
index 3 carries offset 1 - (3 - 1) = -1. -/
theorem whileContinueFork_amended_witness :
    getParam (whileExit c2s4 c2base.instructions.length c2s2.instructions.length)
        c2s4.instructions.length 0 =
      some (.offset ((c2base.instructions.length : Int) -
        ((c2s4.instructions.length : Int) - 1)) 0) :=
  (whileContinueFork_amended c2base 1 [] [] c2s2 c2s4
    (by simp [c2s2]) (by simp [c2s4])).1

/-- C3: evaluation at the failing input: materializing the literal int 3 twice
with caching enabled returns the distinct OperandIds 1 and 2 and appends two
NewInt construction instructions, because the cache is stored under the
(type, value) tuple key but looked up under the bare value, which never
matches. -/
theorem constantCache_doubleEmission :
    (_ensureRemoteObject initialBuilder (.lit (.pyInt 3)) true).2 = 1 ∧
    (_ensureRemoteObject
        (_ensureRemoteObject initialBuilder (.lit (.pyInt 3)) true).1
        (.lit (.pyInt 3)) true).2 = 2 ∧
    ((_ensureRemoteObject
        (_ensureRemoteObject initialBuilder (.lit (.pyInt 3)) true).1
        (.lit (.pyInt 3)) true).1.instructions.map
      (fun r => r.instructionType)) = [.NewInt, .NewInt] ∧
    lookupDict
      ((_ensureRemoteObject initialBuilder (.lit (.pyInt 3)) true).1.remotedObjectCache)
      (.plain (.pyInt 3)) = none := by
  decide

/-- C4 counterexample: the null test (isNull) appends two instructions — a
NewBool constructing the result operand, then the IsNull test — not exactly
one as the claim states. -/
theorem proxyOp_singleInstruction_counterexample :
    (isNull initialBuilder 5).1.instructions.length =
      initialBuilder.instructions.length + 2 ∧
    ((isNull initialBuilder 5).1.instructions.map
      (fun r => r.instructionType)) = [.NewBool, .IsNull] ∧
    (isNull initialBuilder 5).1.instructions.length ≠
      initialBuilder.instructions.length + 1 := by
  decide

/-- C4 (amended): every observable operation on a proxy whose arguments are
already remote objects appends exactly one instruction, apart from the no-op
narrowing cast which appends none and the null test and type test which append
two (a NewBool constructing their result, then the test instruction); each
comparison or non-mutating binary op additionally allocates a fresh result
OperandId. -/
theorem proxyOp_instructionCounts (s : Builder)
    (a b gid pid ig : Nat) (ct : Int) (it : InstructionType)
    (cls : ProxyClass) (args : List Nat) :
    (proxySet s a (.remote b)).instructions.length =
      s.instructions.length + 1 ∧
    (stringify s a).1.instructions.length = s.instructions.length + 1 ∧
    (stringify s a).2 = s.nextOperandId ∧
    (stringify s a).1.nextOperandId = s.nextOperandId + 1 ∧
    (_doCompare s ct a (.remote b)).1.instructions.length =
      s.instructions.length + 1 ∧
    (_doCompare s ct a (.remote b)).2 = s.nextOperandId ∧
    (_doCompare s ct a (.remote b)).1.nextOperandId = s.nextOperandId + 1 ∧
    (_doBinaryOp s it a (.remote b)).1.instructions.length =
      s.instructions.length + 1 ∧
    (_doBinaryOp s it a (.remote b)).2 = s.nextOperandId ∧
    (_doBinaryOp s it a (.remote b)).1.nextOperandId = s.nextOperandId + 1 ∧
    (_doInplaceOp s it a (.remote b)).instructions.length =
      s.instructions.length + 1 ∧
    (strAdd s a (.remoteStr b)).1.instructions.length =
      s.instructions.length + 1 ∧
    (strAdd s a (.remoteStr b)).2 = s.nextOperandId ∧
    (strIAdd s a (.remoteStr b)).instructions.length =
      s.instructions.length + 1 ∧
    (isNull s a).1.instructions.length = s.instructions.length + 2 ∧
    ((isType s a cls).map (fun r => r.1.instructions.length) = none ∨
      (isType s a cls).map (fun r => r.1.instructions.length) =
        some (s.instructions.length + 2)) ∧
    (isExtensionSupported s a (.remote gid)).1.instructions.length =
      s.instructions.length + 1 ∧
    (isExtensionSupported s a (.remote gid)).2 = s.nextOperandId ∧
    (callExtension s a (.remote gid) args).instructions.length =
      s.instructions.length + 1 ∧
    (getPropertyValue s a (.remote pid) (.remote ig)).1.instructions.length =
      s.instructions.length + 1 ∧
    (getPropertyValue s a (.remote pid) (.remote ig)).2 = s.nextOperandId ∧
    (asType s a cls).1.instructions = s.instructions := by
  refine ⟨?_, ?_, rfl, rfl, ?_, rfl, rfl, ?_, rfl, rfl, ?_, ?_, rfl, ?_, ?_,
    ?_, ?_, rfl, ?_, ?_, rfl, rfl⟩
  · simp [proxySet, _ensureRemoteObject, _addInstruction]
  · simp [stringify, _getNewOperandId, _addInstruction]
  · simp [_doCompare, _ensureRemoteObject, _getNewOperandId, _addInstruction]
  · simp [_doBinaryOp, _ensureRemoteObject, _getNewOperandId, _addInstruction]
  · simp [_doInplaceOp, _ensureRemoteObject, _addInstruction]
  · simp [strAdd, _concat, _getNewOperandId, _addInstruction]
  · simp [strIAdd, _concat, _addInstruction]
  · simp [isNull, _newRemote, _getNewOperandId, _initOperandInstr,
      _addInstruction]
  · cases cls <;>
      simp [isType, _isTypeInstruction, _newRemote, _getNewOperandId,
        _initOperandInstr, _addInstruction]
  · simp [isExtensionSupported, _ensureRemoteObject, _getNewOperandId,
      _addInstruction]
  · simp [callExtension, _ensureRemoteObject, _addInstruction]
  · simp [getPropertyValue, _ensureRemoteObject, _getNewOperandId,
      _addInstruction]

/-- C5 counterexample: in a concrete While build the closing Fork's offset
cell was backpatched zero times (not exactly once) and holds the value -1,
which is below 1, even though the construction is well formed and complete. -/
theorem offsets_backpatch_counterexample :
    (getInstr c2fin 3).map (fun r => r.instructionType) = some .Fork ∧
    getParam c2fin 3 0 = some (.offset (-1) 0) ∧
    ¬ (1 ≤ (-1 : Int)) ∧
    (0 : Nat) ≠ 1 := by
  decide

/-- C5 (amended): in well-formed If/Else, While and Try/Catch constructions,
each RelativeOffset is either backpatched at its block's exit — exactly once
to a value ≥ 1, plus one additional increment at Else/Catch entry when an
Else/Catch follows the If/Try — or is already resolved at emission and never
patched: the While loop's closing Fork keeps its negative continue offset and
the NewLoopBlock's second (initial) offset keeps its emission value 1. -/
theorem offsets_backpatch_amended
    (s0 : Builder) (conditionId : Nat)
    (condInstrs bodyInstrs : List InstructionRecord) (s2 s4 : Builder)
    (t0 : Builder) (tCondId : Nat)
    (tIfBody tElseBody : List InstructionRecord) (t2 t4 t5 : Builder) (tJ : Nat)
    (u0 : Builder) (uTryBody uCatchBody : List InstructionRecord)
    (u2 u4 u5 : Builder) (uJ : Nat)
    (h2 : s2.instructions = (whileEnterPre s0).1.instructions ++ condInstrs)
    (h4 : s4.instructions = (ifEnter s2 conditionId).1.instructions ++ bodyInstrs)
    (g2 : t2.instructions = (ifEnter t0 tCondId).1.instructions ++ tIfBody)
    (gE : elseEnter (ifExit t2 t0.instructions.length) = .ok (t4, tJ))
    (g5 : t5.instructions = t4.instructions ++ tElseBody)
    (k2 : u2.instructions = (tryEnter u0).1.instructions ++ uTryBody)
    (kC : catchEnter (tryExit u2 u0.instructions.length) = .ok (u4, uJ))
    (k5 : u5.instructions = u4.instructions ++ uCatchBody) :
    getParam (whileExit s4 s0.instructions.length s2.instructions.length)
        s0.instructions.length 0 =
      some (.offset (((s4.instructions.length : Int) + 2) -
        (s0.instructions.length : Int)) 1) ∧
    1 ≤ ((s4.instructions.length : Int) + 2) - (s0.instructions.length : Int) ∧
    getParam (whileExit s4 s0.instructions.length s2.instructions.length)
        s2.instructions.length 1 =
      some (.offset (((s4.instructions.length : Int) + 1) -
        (s2.instructions.length : Int)) 1) ∧
    1 ≤ ((s4.instructions.length : Int) + 1) - (s2.instructions.length : Int) ∧
    getParam (whileExit s4 s0.instructions.length s2.instructions.length)
        s0.instructions.length 1 =
      some (.offset 1 0) ∧
    getParam (whileExit s4 s0.instructions.length s2.instructions.length)
        s4.instructions.length 0 =
      some (.offset ((s0.instructions.length : Int) -
        ((s4.instructions.length : Int) - 1)) 0) ∧
    (s0.instructions.length : Int) - ((s4.instructions.length : Int) - 1) ≤ -1 ∧
    getParam (ifExit t2 t0.instructions.length) t0.instructions.length 1 =
      some (.offset ((t2.instructions.length : Int) -
        (t0.instructions.length : Int)) 1) ∧
    1 ≤ (t2.instructions.length : Int) - (t0.instructions.length : Int) ∧
    getParam (elseExit t5 tJ) t0.instructions.length 1 =
      some (.offset (((t2.instructions.length : Int) -
        (t0.instructions.length : Int)) + 1) 2) ∧
    getParam (elseExit t5 tJ) tJ 0 =
      some (.offset ((t5.instructions.length : Int) - (tJ : Int)) 1) ∧
    1 ≤ (t5.instructions.length : Int) - (tJ : Int) ∧
    getParam (tryExit u2 u0.instructions.length) u0.instructions.length 0 =
      some (.offset (((u2.instructions.length : Int) + 1) -
        (u0.instructions.length : Int)) 1) ∧
    1 ≤ ((u2.instructions.length : Int) + 1) - (u0.instructions.length : Int) ∧
    getParam (catchExit u5 uJ) u0.instructions.length 0 =
      some (.offset ((((u2.instructions.length : Int) + 1) -
        (u0.instructions.length : Int)) + 1) 2) ∧
    getParam (catchExit u5 uJ) uJ 0 =
      some (.offset ((u5.instructions.length : Int) - (uJ : Int)) 1) ∧
    1 ≤ (u5.instructions.length : Int) - (uJ : Int) := by
  obtain ⟨hFork, hBreak, hInit, hCond, hLen, hb1, hb2, hb3⟩ :=
    whileFacts s0 conditionId condInstrs bodyInstrs s2 s4 h2 h4
  obtain ⟨iB, iLen3, iJval, iLen4, iD1, iF2, iF1, iF3⟩ :=
    ifElseFacts t0 tCondId tIfBody tElseBody t2 t4 t5 tJ g2 gE g5
  obtain ⟨jB, jLen3, jJval, jLen4, jD1, jF2, jF1, jF3⟩ :=
    tryCatchFacts u0 uTryBody uCatchBody u2 u4 u5 uJ k2 kC k5
  have hlent2 : t2.instructions.length =
      t0.instructions.length + 1 + tIfBody.length := by
    rw [g2, ifEnter_instructions]
    simp
    omega
  have hlent5 : t5.instructions.length = tJ + 1 + tElseBody.length := by
    rw [g5, List.length_append, iLen4]
  have hlenu2 : u2.instructions.length =
      u0.instructions.length + 1 + uTryBody.length := by
    rw [k2, tryEnter_instructions]
    simp
    omega
  have hlenu5 : u5.instructions.length = uJ + 1 + uCatchBody.length := by
    rw [k5, List.length_append, jLen4]
  refine ⟨hBreak, by omega, hCond, by omega, hInit, hFork, by omega,
    iB, by omega, iF2, iF1, by omega, jB, by omega, jF2, jF1, by omega⟩

/-- Witness for C5 (amended): the concrete While, If/Else and Try/Catch
builds; the NewLoopBlock break offset in the While build reads 3 + 2 - 1 = 4
with one patch. -/
theorem offsets_backpatch_amended_witness :
    getParam (whileExit c2s4 c2base.instructions.length c2s2.instructions.length)
        c2base.instructions.length 0 =
      some (.offset (((c2s4.instructions.length : Int) + 2) -
        (c2base.instructions.length : Int)) 1) :=
  (offsets_backpatch_amended c2base 1 [] [] c2s2 c2s4
    initialBuilder 1 [] [] c1s2 c1s4 c1s4 1
    initialBuilder [] [] c5t2 c5t4 c5t4 2
    (by simp [c2s2]) (by simp [c2s4])
    (by simp [c1s2]) rfl (by simp)
    (by simp [c5t2]) rfl (by simp)).1

/-- C6: entering an elseBlock whose immediately preceding exited scope is not
an If block (including when it is a Try block, or when no scope was just
exited), and entering a catchBlock whose immediately preceding exited scope is
not a Try block (including when it is an If block), each fail immediately at
block-entry time with the corresponding error, before any instruction of the
new block is emitted (the error return carries no new builder state, so
nothing is appended).  The two misuses are stated over independent builder
states s and u, each constrained only by the condition its own entry
checks. -/
theorem structuralMisuse_raisesAtEntry (s u : Builder)
    (hIf : ∀ i, s.scopeJustExited ≠ some (.ifScope i))
    (hTry : ∀ i, u.scopeJustExited ≠ some (.tryScope i)) :
    elseEnter s = .error "Else block not directly preceded by If block" ∧
    catchEnter u = .error "Catch block not directly preceded by Try block" := by
  constructor
  · obtain ⟨ins, nid, sje, cache⟩ := s
    unfold elseEnter
    rcases sje with _ | sc
    · rfl
    · cases sc with
      | ifScope i => exact absurd rfl (hIf i)
      | tryScope j => rfl
      | elseScope j => rfl
      | whileScope j => rfl
      | catchScope j => rfl
  · obtain ⟨ins, nid, sje, cache⟩ := u
    unfold catchEnter
    rcases sje with _ | sc
    · rfl
    · cases sc with
      | ifScope j => rfl
      | tryScope i => exact absurd rfl (hTry i)
      | elseScope j => rfl
      | whileScope j => rfl
      | catchScope j => rfl

/-- Witness for C6 at the crossed cases: after exiting a Try scope, entering
an Else fails with the structural error (and, via the same application,
entering a Catch after exiting an If scope fails too). -/
theorem structuralMisuse_raisesAtEntry_witness :
    elseEnter (scopeExit initialBuilder (.tryScope 0)) =
      .error "Else block not directly preceded by If block" :=
  (structuralMisuse_raisesAtEntry (scopeExit initialBuilder (.tryScope 0))
    (scopeExit initialBuilder (.ifScope 0))
    (fun _ h => Scope.noConfusion (Option.some.inj h))
    (fun _ h => Scope.noConfusion (Option.some.inj h))).1

/-- C7: execute() first appends exactly one terminating Halt instruction,
makes exactly one engine call whose payload is the version header followed by
the serialized stream, and maps the returned status to its outcome: raising
the malformed-bytecode, instruction-limit, remote (carrying the failing
instruction's index and the extended error) or execution-failure exception,
and returning normally exactly when the status is Success. -/
theorem execute_singleCall_statusMapping (s : Builder)
    (engine : List Nat → RemoteOperationResult) :
    (execute s engine).1.instructions = s.instructions ++ [⟨.Halt, [], ""⟩] ∧
    (execute s engine).2.1 =
      [_versionBytes ++
        _generateByteCode (s.instructions ++ [⟨.Halt, [], ""⟩])] ∧
    (execute s engine).2.1.length = 1 ∧
    ((execute s engine).2.2 = .success ↔
      (engine (_versionBytes ++
        _generateByteCode (s.instructions ++ [⟨.Halt, [], ""⟩]))).status =
        .Success) ∧
    ((execute s engine).2.2 = .malformedBytecodeException ↔
      (engine (_versionBytes ++
        _generateByteCode (s.instructions ++ [⟨.Halt, [], ""⟩]))).status =
        .MalformedBytecode) ∧
    ((execute s engine).2.2 = .instructionLimitExceededException ↔
      (engine (_versionBytes ++
        _generateByteCode (s.instructions ++ [⟨.Halt, [], ""⟩]))).status =
        .InstructionLimitExceeded) ∧
    ((execute s engine).2.2 =
        .remoteException
          (engine (_versionBytes ++
            _generateByteCode (s.instructions ++ [⟨.Halt, [], ""⟩]))).errorLocation
          (engine (_versionBytes ++
            _generateByteCode (s.instructions ++ [⟨.Halt, [], ""⟩]))).extendedError ↔
      (engine (_versionBytes ++
        _generateByteCode (s.instructions ++ [⟨.Halt, [], ""⟩]))).status =
        .UnhandledException) ∧
    ((execute s engine).2.2 = .executionFailureException ↔
      (engine (_versionBytes ++
        _generateByteCode (s.instructions ++ [⟨.Halt, [], ""⟩]))).status =
        .ExecutionFailure) := by
  unfold execute halt _addInstruction
  cases h : (engine (_versionBytes ++
      _generateByteCode (s.instructions ++ [⟨.Halt, [], ""⟩]))).status <;>
    simp [h]

/-- C8: the narrowing cast asType returns a proxy of the requested class
holding the same OperandId as the variant, and leaves the builder — in
particular its instruction stream — completely unchanged. -/
theorem asType_preservesOperand_noInstruction (rob : Builder) (v : Nat)
    (cls : ProxyClass) :
    (asType rob v cls).1 = rob ∧
    (asType rob v cls).1.instructions = rob.instructions ∧
    (asType rob v cls).2.operandId = v ∧
    (asType rob v cls).2.cls = cls :=
  ⟨rfl, rfl, rfl, rfl⟩

/-- C9: the byte-code encoder produces, in emission order, each instruction as
its 4-byte opcode followed by each parameter's raw fixed-width encoding,
except that a wide-character text parameter (a buffer of code units ending in
the NUL terminator) is encoded as a 4-byte length equal to its code-unit count
excluding the terminator, followed by its raw code units with the terminator
stripped. -/
theorem byteCode_layout (instrs : List InstructionRecord)
    (t : InstructionType) (ps : List Param) (loc : String) (u : List Nat)
    (n : Nat) (v : Int) (b : Bool) (c : Nat) (g : List Nat) :
    _generateByteCode instrs = (instrs.map encodeInstruction).flatten ∧
    encodeInstruction ⟨t, ps, loc⟩ =
      pack4 ((opcodeOf t : Int)) ++ (ps.map encodeParam).flatten ∧
    (pack4 ((opcodeOf t : Int))).length = 4 ∧
    encodeParam (.text (u ++ [0])) =
      pack4 ((u.length : Int)) ++ (u.map pack2).flatten ∧
    (pack4 ((u.length : Int))).length = 4 ∧
    encodeParam (.operand n) = pack4 ((n : Int)) ∧
    encodeParam (.intVal v) = pack4 v ∧
    encodeParam (.boolVal b) = [if b then 1 else 0] ∧
    encodeParam (.offset v c) = pack4 v ∧
    encodeParam (.guid g) = g :=
  ⟨generateByteCode_eq instrs, rfl, rfl, encodeParam_text u, rfl, rfl, rfl,
    rfl, rfl, rfl⟩

/-- C10: appending any instruction resets the last-exited-scope marker to
empty, entering any scoped block resets it, and it is set exactly when a block
is exited; consequently after any sequence of builder events, Else (resp.
Catch) entry succeeds if and only if the last event was exiting an If (resp.
Try) scope — independent of nesting depth. -/
theorem scopeMarker_trace (s : Builder) (evs : List BuilderEvent)
    (e : BuilderEvent) (t : InstructionType) (ps : List Param) (sc : Scope) :
    ((_addInstruction s t ps).1).scopeJustExited = none ∧
    (scopeEnter s).scopeJustExited = none ∧
    (scopeExit s sc).scopeJustExited = some sc ∧
    (runEvents s (evs ++ [e])).scopeJustExited = eventMarker e ∧
    ((∃ r, elseEnter (runEvents s (evs ++ [e])) = .ok r) ↔
      ∃ i, e = .exit (.ifScope i)) ∧
    ((∃ r, catchEnter (runEvents s (evs ++ [e])) = .ok r) ↔
      ∃ i, e = .exit (.tryScope i)) := by
  refine ⟨rfl, rfl, rfl, ?_, ?_, ?_⟩
  · rw [runEvents_append_single, applyEvent_marker]
  · rw [elseEnter_ok_iff, runEvents_append_single, applyEvent_marker]
    cases e with
    | addInstr t2 ps2 => simp [eventMarker]
    | enter => simp [eventMarker]
    | exit sc2 => cases sc2 <;> simp [eventMarker]
  · rw [catchEnter_ok_iff, runEvents_append_single, applyEvent_marker]
    cases e with
    | addInstr t2 ps2 => simp [eventMarker]
    | enter => simp [eventMarker]
    | exit sc2 => cases sc2 <;> simp [eventMarker]

end MidLevel
